import Mathlib

/-!
Shallow embedding of the money-movement core of this repository:

* `pallets/erc20/src/lib.rs` — a single-asset ledger with per-account
  free balances (`Balances`, a `ValueQuery` map defaulting to zero), an
  `Allowance` map keyed by account pairs, and the dispatchables
  `transfer` / `transfer_from` / `allowance` built on `transfer_help`.
* `pallets/exchange/src/lib.rs` — an escrow order book (`Orders`,
  `NextOrderId`) over a reservable multi-currency interface, with the
  dispatchables `submit_order` / `take_order` / `cancel_order`.

Account ids, currency ids, order ids and balances are opaque unsigned
integral values in the source (`T::AccountId`, `T::Balance : AtLeast32BitUnsigned`,
`T::OrderId : AtLeast32BitUnsigned + Bounded`); they are modelled as `Nat`.
The order-id bound (`Bounded::max_value`) is kept as an explicit `max`
parameter so that `checked_add` overflow is representable.  Storage maps
become total functions (`ValueQuery` default is the type's zero / `None`),
events become an explicit appended log, and each dispatchable becomes a
function `state → args → Except Error state`.  An `Except.error` result
models a `DispatchError` return, which in the source leaves storage
untouched: the counter write inside `try_mutate` is rolled back on error,
`try_mutate_exists` does not write back on error, the two settlement legs
of `take_order` sit inside `with_transaction_result`, and every other
error is raised before any write.  The `*Run` wrappers make that
convention explicit by returning the pre-call state on error.
-/

/-! ### The erc20 ledger pallet -/

/-- Events of the erc20 pallet (`Event<T>` in `pallets/erc20/src/lib.rs`). -/
inductive Erc20Event : Type
  | Transfer (source dest : Nat) (value : Nat)
  | Approve (owner spender : Nat) (value : Nat)
deriving DecidableEq, Repr

/-- Errors of the erc20 pallet (`Error<T>` in `pallets/erc20/src/lib.rs`),
keeping the source's spelling. -/
inductive Erc20Error : Type
  | InSufficientBalance
  | InSufficientAllowance
deriving DecidableEq, Repr

/-- Storage of the erc20 pallet: `Balances` is a `ValueQuery` map (absent
accounts read as zero), `Allowance` is an `OptionQuery` map keyed by an
account pair, and `events` is the deposited event log in order. -/
structure Erc20State : Type where
  balances : Nat → Nat
  allowance : Nat × Nat → Option Nat
  events : List Erc20Event

/-- Embeds `Pallet::transfer_help` (`pallets/erc20/src/lib.rs` lines 118-132):
reads the payer's balance, fails with `InSufficientBalance` when it is
below `value`, otherwise writes the debited payer balance, re-reads the
payee balance (after the debit, so a self-transfer nets out), writes the
credited payee balance, and deposits `Transfer`. -/
def transfer_help (s : Erc20State) (from_ to_ value : Nat) : Except Erc20Error Erc20State :=
  let from_balance := s.balances from_
  if from_balance < value then
    .error .InSufficientBalance
  else
    let s1 : Erc20State := { s with balances := Function.update s.balances from_ (from_balance - value) }
    let to_balance := s1.balances to_
    let s2 : Erc20State := { s1 with balances := Function.update s1.balances to_ (to_balance + value) }
    .ok { s2 with events := s2.events ++ [.Transfer from_ to_ value] }

/-- Embeds `Pallet::transfer` (`pallets/erc20/src/lib.rs` lines 74-80): after
origin verification (external to the core) it is exactly `transfer_help`. -/
def transfer (s : Erc20State) (who to_ value : Nat) : Except Erc20Error Erc20State :=
  transfer_help s who to_ value

/-- Embeds `Pallet::transfer_from` (`pallets/erc20/src/lib.rs` lines 83-97):
gates on the payer's balance (not on any stored allowance), failing with
`InSufficientAllowance`; on the success path it first overwrites the
allowance entry keyed `(from, to)` with `from_balance - value` and then
runs `transfer_help from to value`. -/
def transfer_from (s : Erc20State) (from_ to_ value : Nat) : Except Erc20Error Erc20State :=
  let from_balance := s.balances from_
  if from_balance < value then
    .error .InSufficientAllowance
  else
    let s1 : Erc20State :=
      { s with allowance := Function.update s.allowance (from_, to_) (some (from_balance - value)) }
    transfer_help s1 from_ to_ value

/-- Embeds `Pallet::allowance` (`pallets/erc20/src/lib.rs` lines 100-113), the
approve operation: bounded by the owner's current balance, overwrites the
`(owner, spender)` allowance and deposits `Approve`. -/
def approve (s : Erc20State) (who spender value : Nat) : Except Erc20Error Erc20State :=
  let who_balance := s.balances who
  if who_balance < value then
    .error .InSufficientBalance
  else
    .ok { s with
      allowance := Function.update s.allowance (who, spender) (some value),
      events := s.events ++ [.Approve who spender value] }

/-- Run `transfer`, keeping the pre-call state on error (a dispatch error
leaves storage untouched: `transfer_help` raises before any write). -/
def transferRun (s : Erc20State) (who to_ value : Nat) : Erc20State × Option Erc20Error :=
  match transfer s who to_ value with
  | .ok s1 => (s1, none)
  | .error e => (s, some e)

/-- Run `transfer_from`, keeping the pre-call state on error. -/
def transferFromRun (s : Erc20State) (from_ to_ value : Nat) : Erc20State × Option Erc20Error :=
  match transfer_from s from_ to_ value with
  | .ok s1 => (s1, none)
  | .error e => (s, some e)

/-- One ledger call of the erc20 pallet, for reasoning about sequences. -/
inductive LedgerOp : Type
  | transferOp (source dest value : Nat)
  | transferFromOp (source dest value : Nat)
deriving DecidableEq, Repr

/-- The payer account named by a ledger call. -/
def LedgerOp.src : LedgerOp → Nat
  | .transferOp f _ _ => f
  | .transferFromOp f _ _ => f

/-- The payee account named by a ledger call. -/
def LedgerOp.dst : LedgerOp → Nat
  | .transferOp _ t _ => t
  | .transferFromOp _ t _ => t

/-- Apply one ledger call; a failing call leaves the state unchanged. -/
def applyLedgerOp (s : Erc20State) : LedgerOp → Erc20State
  | .transferOp f t v => (transferRun s f t v).1
  | .transferFromOp f t v => (transferFromRun s f t v).1

/-- Apply a sequence of ledger calls in order. -/
def applyLedgerOps (s : Erc20State) (ops : List LedgerOp) : Erc20State :=
  ops.foldl applyLedgerOp s

/-! ### The exchange order-book pallet -/

/-- Embeds `Order` (`pallets/exchange/src/lib.rs` lines 42-51). -/
structure Order : Type where
  base_currency_id : Nat
  base_amount : Nat
  target_currency_id : Nat
  target_amount : Nat
  owner : Nat
deriving DecidableEq, Repr

/-- Events of the exchange pallet (`Event<T>` in `pallets/exchange/src/lib.rs`). -/
inductive ExchEvent : Type
  | OrderCreated (order_id : Nat) (order : Order)
  | OrderTaken (who order_id : Nat) (order : Order)
  | OrderCancelled (order_id : Nat)
deriving DecidableEq, Repr

/-- Errors of the exchange pallet (`Error<T>` in `pallets/exchange/src/lib.rs`). -/
inductive ExchError : Type
  | NoneValue
  | OrderIdOverflow
  | InvalidOrderId
  | InsufficientBalance
  | NotOwner
  | OrderIsNone
deriving DecidableEq, Repr

/-- Storage of the exchange pallet together with the backing multi-currency
balances.  `orders` models the raw storage of
`Orders : StorageMap<OrderId, Option<Order>, ValueQuery>` as seen by
`try_mutate_exists`: the outer `Option` is entry presence, the inner one is
the stored `Option<Order>` value.  `next_order_id` is `NextOrderId`
(`ValueQuery`, zero default).  `free` and `reserved` are the per
`(currency, account)` free and reserved balances of `T::Currency`
(`MultiReservableCurrency`), and `events` is the deposited event log. -/
structure ExchState : Type where
  orders : Nat → Option (Option Order)
  next_order_id : Nat
  free : Nat × Nat → Nat
  reserved : Nat × Nat → Nat
  events : List ExchEvent

/-- Modelled from the spec: `T::Currency::reserve` (the ReservationStore's
`reserve`, provided by the `MultiReservableCurrency` implementation, which
is not part of this repository's sources) "fails `InsufficientBalance` if
free balance < amount; moves `amount` from free to reserved for
`(account, asset)`". -/
def reserve (s : ExchState) (currency who amount : Nat) : Except ExchError ExchState :=
  if s.free (currency, who) < amount then
    .error .InsufficientBalance
  else
    .ok { s with
      free := Function.update s.free (currency, who) (s.free (currency, who) - amount),
      reserved := Function.update s.reserved (currency, who) (s.reserved (currency, who) + amount) }

/-- Modelled from the spec: `T::Currency::transfer` (the Ledger-style free
balance transfer of the `MultiCurrency` implementation, not part of this
repository's sources): fails `InsufficientBalance` when the payer's free
balance is below `amount`, otherwise debits the payer's free balance and
credits the payee's free balance. -/
def mc_transfer (s : ExchState) (currency from_ to_ amount : Nat) : Except ExchError ExchState :=
  if s.free (currency, from_) < amount then
    .error .InsufficientBalance
  else
    let s1 : ExchState :=
      { s with free := Function.update s.free (currency, from_) (s.free (currency, from_) - amount) }
    .ok { s1 with
      free := Function.update s1.free (currency, to_) (s1.free (currency, to_) + amount) }

/-- Modelled from the spec: `T::Currency::repatriate_reserved` with
`BalanceStatus::Free` (not part of this repository's sources) "attempts to
move `amount` from `from_account`'s reserved pool into `to_account`'s free
pool; returns the shortfall (zero if fully satisfied, positive residual if
`from_account`'s reserved balance was insufficient to cover `amount` — it
moves what is available and reports the rest as unmet, rather than failing
outright)". -/
def repatriate_reserved (s : ExchState) (currency from_ to_ amount : Nat) : ExchState × Nat :=
  let avail := s.reserved (currency, from_)
  let moved := min amount avail
  let s1 : ExchState :=
    { s with reserved := Function.update s.reserved (currency, from_) (avail - moved) }
  let s2 : ExchState :=
    { s1 with free := Function.update s1.free (currency, to_) (s1.free (currency, to_) + moved) }
  (s2, amount - moved)

/-- Embeds `Pallet::submit_order` (`pallets/exchange/src/lib.rs` lines 113-146).
Inside `NextOrderId::try_mutate` it snapshots the current id, advances the
counter with `checked_add(1)` (failing `OrderIdOverflow` — the `max`
parameter stands for `Bounded::max_value` of `T::OrderId`, so the add
overflows exactly when the counter already holds `max`), reserves
`base_amount` of the base currency from the caller, stores the order as
`Some(order)` under the snapshotted id and deposits `OrderCreated`.
Any error makes `try_mutate` discard the counter write, and the failing
`reserve` has no effect of its own, so an error leaves storage unchanged. -/
def submit_order (max : Nat) (s : ExchState)
    (who base_currency_id base_amount target_currency_id target_amount : Nat) :
    Except ExchError ExchState :=
  let order_id := s.next_order_id
  let order : Order :=
    { base_currency_id := base_currency_id, base_amount := base_amount,
      target_currency_id := target_currency_id, target_amount := target_amount,
      owner := who }
  if order_id + 1 ≤ max then
    match reserve s base_currency_id who base_amount with
    | .error e => .error e
    | .ok s1 =>
      .ok { s1 with
        next_order_id := order_id + 1,
        orders := Function.update s1.orders order_id (some (some order)),
        events := s1.events ++ [.OrderCreated order_id order] }
  else
    .error .OrderIdOverflow

/-- Embeds `Pallet::take_order` (`pallets/exchange/src/lib.rs` lines 149-180).
`Orders::try_mutate_exists` takes the entry: an absent entry is
`InvalidOrderId`, a stored `None` is `OrderIsNone`.  On a live order, inside
`with_transaction_result`, leg 1 transfers `target_amount` of the target
currency from the taker to the owner, leg 2 repatriates `base_amount` of
the base currency from the owner's reserved pool to the taker's free
balance, and a non-zero repatriation shortfall fails the whole unit with
`InsufficientBalance`.  On success the entry (left `None` by `take()`) is
removed and `OrderTaken` is deposited; on error both the legs and the
entry removal are rolled back, so the pre-call state is kept. -/
def take_order (s : ExchState) (who order_id : Nat) : Except ExchError ExchState :=
  match s.orders order_id with
  | none => .error .InvalidOrderId
  | some none => .error .OrderIsNone
  | some (some order) =>
    match mc_transfer s order.target_currency_id who order.owner order.target_amount with
    | .error e => .error e
    | .ok s1 =>
      let rep := repatriate_reserved s1 order.base_currency_id order.owner who order.base_amount
      if rep.2 = 0 then
        .ok { rep.1 with
          orders := Function.update rep.1.orders order_id none,
          events := rep.1.events ++ [.OrderTaken who order_id order] }
      else
        .error .InsufficientBalance

/-- Embeds `Pallet::cancel_order` (`pallets/exchange/src/lib.rs` lines 183-199).
Same `InvalidOrderId` / `OrderIsNone` lookup as `take_order`; fails
`NotOwner` when the caller is not the order's owner (the entry removal by
`take()` is rolled back by `try_mutate_exists`); on success the entry is
removed and `OrderCancelled` is deposited.  No balance or reservation is
touched. -/
def cancel_order (s : ExchState) (who order_id : Nat) : Except ExchError ExchState :=
  match s.orders order_id with
  | none => .error .InvalidOrderId
  | some none => .error .OrderIsNone
  | some (some order) =>
    if order.owner = who then
      .ok { s with
        orders := Function.update s.orders order_id none,
        events := s.events ++ [.OrderCancelled order_id] }
    else
      .error .NotOwner

/-- Run `submit_order`, keeping the pre-call state on error. -/
def submitOrderRun (max : Nat) (s : ExchState)
    (who base_currency_id base_amount target_currency_id target_amount : Nat) :
    ExchState × Option ExchError :=
  match submit_order max s who base_currency_id base_amount target_currency_id target_amount with
  | .ok s1 => (s1, none)
  | .error e => (s, some e)

/-- Run `take_order`, keeping the pre-call state on error. -/
def takeOrderRun (s : ExchState) (who order_id : Nat) : ExchState × Option ExchError :=
  match take_order s who order_id with
  | .ok s1 => (s1, none)
  | .error e => (s, some e)

/-- Run `cancel_order`, keeping the pre-call state on error. -/
def cancelOrderRun (s : ExchState) (who order_id : Nat) : ExchState × Option ExchError :=
  match cancel_order s who order_id with
  | .ok s1 => (s1, none)
  | .error e => (s, some e)

/-- One dispatchable call of the exchange pallet. -/
inductive ExchOp : Type
  | submitOp (who base_currency_id base_amount target_currency_id target_amount : Nat)
  | takeOp (who order_id : Nat)
  | cancelOp (who order_id : Nat)
deriving DecidableEq, Repr

/-- Apply one exchange call; a failing call leaves the state unchanged. -/
def applyExchOp (max : Nat) (s : ExchState) : ExchOp → ExchState
  | .submitOp who bc ba tc ta => (submitOrderRun max s who bc ba tc ta).1
  | .takeOp who oid => (takeOrderRun s who oid).1
  | .cancelOp who oid => (cancelOrderRun s who oid).1

/-- Apply a sequence of exchange calls in order. -/
def applyExchOps (max : Nat) (ops : List ExchOp) (s : ExchState) : ExchState :=
  ops.foldl (applyExchOp max) s

/-- Genesis state of the exchange pallet: both `ValueQuery` storages hold
their defaults (`Orders` empty, `NextOrderId` at the order-id type's zero),
no event deposited yet; the backing currency starts with arbitrary endowed
free balances and nothing reserved. -/
def exchInit (free0 : Nat × Nat → Nat) : ExchState :=
  { orders := fun _ => none, next_order_id := 0,
    free := free0, reserved := fun _ => 0, events := [] }

/-- The order ids carried by `OrderCreated` events, in deposit order. -/
def createdIds : List ExchEvent → List Nat
  | [] => []
  | .OrderCreated i _ :: rest => i :: createdIds rest
  | .OrderTaken _ _ _ :: rest => createdIds rest
  | .OrderCancelled _ :: rest => createdIds rest

/-- Order-id bookkeeping invariant: the ids deposited by `OrderCreated`
events are strictly increasing and all below the current counter. -/
def IdsOk (s : ExchState) : Prop :=
  List.Sorted (· < ·) (createdIds s.events) ∧
  ∀ i ∈ createdIds s.events, i < s.next_order_id

/-! ### Concrete fixtures used by the witnesses -/

/-- A ledger state where account 0 holds 100 and everyone else holds 0. -/
def demoLedger : Erc20State :=
  { balances := fun a => if a = 0 then 100 else 0,
    allowance := fun _ => none, events := [] }

/-- A live order: 30 of currency 0 (reserved by owner 7) offered for 10 of
currency 1. -/
def demoOrder : Order :=
  { base_currency_id := 0, base_amount := 30,
    target_currency_id := 1, target_amount := 10, owner := 7 }

/-- An order-book state holding `demoOrder` at id 0, with taker 2 endowed
with 10 of the target currency and the owner's 30 base fully reserved. -/
def demoBook : ExchState :=
  { orders := Function.update (fun _ => none) 0 (some (some demoOrder)),
    next_order_id := 1,
    free := fun p => if p = (1, 2) then 10 else 0,
    reserved := fun p => if p = (0, 7) then 30 else 0,
    events := [] }

/-- Like `demoBook` but the owner's reserved base balance is only 20, so
repatriating the 30 base units must come up 10 short. -/
def demoBookShort : ExchState :=
  { demoBook with reserved := fun p => if p = (0, 7) then 20 else 0 }

/-! ### Ledger theorems -/

/-- Claim C6: `transfer` fails with `InSufficientBalance` exactly when the
payer's balance is below `value` (failure leaves every balance unchanged);
on success it debits the payer and credits the payee by `value` (a
self-transfer nets to the same balance) and deposits
`Transfer(from, to, value)`. -/
theorem transfer_gate_and_effects (s : Erc20State) (from_ to_ value : Nat) :
    (s.balances from_ < value →
      transferRun s from_ to_ value = (s, some Erc20Error.InSufficientBalance)) ∧
    (value ≤ s.balances from_ →
      (transferRun s from_ to_ value).2 = none ∧
      (transferRun s from_ to_ value).1.balances from_ =
        (if from_ = to_ then s.balances from_ else s.balances from_ - value) ∧
      (transferRun s from_ to_ value).1.balances to_ =
        (if from_ = to_ then s.balances to_ else s.balances to_ + value) ∧
      (∀ a, a ≠ from_ → a ≠ to_ → (transferRun s from_ to_ value).1.balances a = s.balances a) ∧
      (transferRun s from_ to_ value).1.allowance = s.allowance ∧
      (transferRun s from_ to_ value).1.events =
        s.events ++ [Erc20Event.Transfer from_ to_ value]) := by
  constructor
  · intro h
    simp [transferRun, transfer, transfer_help, h]
  · intro h
    have h' : ¬ s.balances from_ < value := not_lt.mpr h
    simp only [transferRun, transfer, transfer_help, h', if_false]
    refine ⟨trivial, ?_, ?_, ?_, trivial, trivial⟩
    · by_cases hft : from_ = to_
      · subst hft
        simp [Nat.sub_add_cancel h]
      · simp [Function.update_apply, hft, Ne.symm hft]
    · by_cases hft : from_ = to_
      · subst hft
        simp [Nat.sub_add_cancel h]
      · simp [Function.update_apply, hft, Ne.symm hft]
    · intro a haf hat
      simp [Function.update_apply, haf, hat]

/-- Claim C6 witness: scenario B — with balance 50, transferring 51 fails
`InSufficientBalance` and leaves the state unchanged. -/
theorem transfer_gate_and_effects_witness :
    (demoLedger.balances 0 < 101 →
      transferRun demoLedger 0 1 101 = (demoLedger, some Erc20Error.InSufficientBalance)) ∧
    ((100 : Nat) < 101) ∧
    transferRun demoLedger 0 1 101 = (demoLedger, some Erc20Error.InSufficientBalance) :=
  ⟨(transfer_gate_and_effects demoLedger 0 1 101).1, by decide,
    (transfer_gate_and_effects demoLedger 0 1 101).1 (by decide)⟩

/-- Claim C7: a self-transfer `transfer(a, a, v)` with sufficient balance
succeeds, leaves every balance (in particular `balance_of(a)`) at its
pre-call value, and still deposits `Transfer(a, a, v)`; with insufficient
balance it fails the sufficiency check with `InSufficientBalance`. -/
theorem self_transfer_noop (s : Erc20State) (a v : Nat) :
    (v ≤ s.balances a →
      (transferRun s a a v).2 = none ∧
      (transferRun s a a v).1.balances = s.balances ∧
      (transferRun s a a v).1.events = s.events ++ [Erc20Event.Transfer a a v]) ∧
    (s.balances a < v →
      transferRun s a a v = (s, some Erc20Error.InSufficientBalance)) := by
  constructor
  · intro h
    have h' : ¬ s.balances a < v := not_lt.mpr h
    simp only [transferRun, transfer, transfer_help, h', if_false]
    refine ⟨trivial, ?_, trivial⟩
    funext x
    by_cases hx : x = a
    · subst hx
      simp [Nat.sub_add_cancel h]
    · simp [Function.update_apply, hx]
  · intro h
    simp [transferRun, transfer, transfer_help, h]

/-- Claim C7 witness: transferring 100 from account 0 to itself succeeds,
keeps the balances function intact and deposits the event; transferring
101 fails the sufficiency check. -/
theorem self_transfer_noop_witness :
    ((100 : Nat) ≤ demoLedger.balances 0) ∧
    ((transferRun demoLedger 0 0 100).2 = none ∧
      (transferRun demoLedger 0 0 100).1.balances = demoLedger.balances ∧
      (transferRun demoLedger 0 0 100).1.events =
        demoLedger.events ++ [Erc20Event.Transfer 0 0 100]) ∧
    (demoLedger.balances 0 < 101) ∧
    transferRun demoLedger 0 0 101 = (demoLedger, some Erc20Error.InSufficientBalance) :=
  ⟨by decide, (self_transfer_noop demoLedger 0 100).1 (by decide),
    by decide, (self_transfer_noop demoLedger 0 101).2 (by decide)⟩

/-- Claim C3: `transfer_from` fails with `InSufficientAllowance` exactly
when the payer's balance is below `value` (the gate is the payer's balance,
never a stored allowance — the state's `allowance` map is not consulted);
on success it overwrites the allowance entry keyed `(from, to)` with the
pre-call `balance_of(from) - value`, debits the payer and credits the payee
by `value`, and deposits `Transfer(from, to, value)`. -/
theorem transfer_from_gate_and_effects (s : Erc20State) (from_ to_ value : Nat) :
    (s.balances from_ < value →
      transferFromRun s from_ to_ value = (s, some Erc20Error.InSufficientAllowance)) ∧
    (value ≤ s.balances from_ →
      (transferFromRun s from_ to_ value).2 = none ∧
      (transferFromRun s from_ to_ value).1.allowance (from_, to_) =
        some (s.balances from_ - value) ∧
      (∀ p, p ≠ (from_, to_) →
        (transferFromRun s from_ to_ value).1.allowance p = s.allowance p) ∧
      (transferFromRun s from_ to_ value).1.balances from_ =
        (if from_ = to_ then s.balances from_ else s.balances from_ - value) ∧
      (transferFromRun s from_ to_ value).1.balances to_ =
        (if from_ = to_ then s.balances to_ else s.balances to_ + value) ∧
      (∀ a, a ≠ from_ → a ≠ to_ →
        (transferFromRun s from_ to_ value).1.balances a = s.balances a) ∧
      (transferFromRun s from_ to_ value).1.events =
        s.events ++ [Erc20Event.Transfer from_ to_ value]) := by
  constructor
  · intro h
    simp [transferFromRun, transfer_from, h]
  · intro h
    have h' : ¬ s.balances from_ < value := not_lt.mpr h
    simp only [transferFromRun, transfer_from, transfer_help, h', if_false]
    refine ⟨trivial, ?_, ?_, ?_, ?_, ?_, trivial⟩
    · simp
    · intro p hp
      simp [Function.update_apply, hp]
    · by_cases hft : from_ = to_
      · subst hft
        simp [Nat.sub_add_cancel h]
      · simp [Function.update_apply, hft, Ne.symm hft]
    · by_cases hft : from_ = to_
      · subst hft
        simp [Nat.sub_add_cancel h]
      · simp [Function.update_apply, hft, Ne.symm hft]
    · intro a haf hat
      simp [Function.update_apply, haf, hat]

/-- Claim C3 witness: with balance 100 at account 0 and no prior approval,
`transfer_from(0, 1, 40)` succeeds (the allowance map was never consulted),
sets the `(0, 1)` allowance to 60, moves the 40 units and deposits the
event; `transfer_from(0, 1, 101)` fails `InSufficientAllowance`. -/
theorem transfer_from_gate_and_effects_witness :
    ((40 : Nat) ≤ demoLedger.balances 0) ∧
    ((transferFromRun demoLedger 0 1 40).2 = none ∧
      (transferFromRun demoLedger 0 1 40).1.allowance (0, 1) =
        some (demoLedger.balances 0 - 40) ∧
      (∀ p, p ≠ ((0 : Nat), (1 : Nat)) →
        (transferFromRun demoLedger 0 1 40).1.allowance p = demoLedger.allowance p) ∧
      (transferFromRun demoLedger 0 1 40).1.balances 0 =
        (if (0 : Nat) = 1 then demoLedger.balances 0 else demoLedger.balances 0 - 40) ∧
      (transferFromRun demoLedger 0 1 40).1.balances 1 =
        (if (0 : Nat) = 1 then demoLedger.balances 1 else demoLedger.balances 1 + 40) ∧
      (∀ a, a ≠ 0 → a ≠ 1 →
        (transferFromRun demoLedger 0 1 40).1.balances a = demoLedger.balances a) ∧
      (transferFromRun demoLedger 0 1 40).1.events =
        demoLedger.events ++ [Erc20Event.Transfer 0 1 40]) ∧
    (demoLedger.balances 0 < 101) ∧
    transferFromRun demoLedger 0 1 101 = (demoLedger, some Erc20Error.InSufficientAllowance) :=
  ⟨by decide, (transfer_from_gate_and_effects demoLedger 0 1 40).2 (by decide),
    by decide, (transfer_from_gate_and_effects demoLedger 0 1 101).1 (by decide)⟩

/-- A successful `transfer_help` preserves the sum of balances over any
finite account set containing both the payer and the payee. -/
theorem transfer_help_sum (s s1 : Erc20State) (f t v : Nat) (S : Finset Nat)
    (hf : f ∈ S) (ht : t ∈ S)
    (h : transfer_help s f t v = .ok s1) :
    ∑ a ∈ S, s1.balances a = ∑ a ∈ S, s.balances a := by
  unfold transfer_help at h
  by_cases hb : s.balances f < v
  · simp [hb] at h
  · simp only [hb, if_false, Except.ok.injEq] at h
    subst h
    have hv : v ≤ s.balances f := not_lt.mp hb
    have e1 : ∑ a ∈ S,
        Function.update (Function.update s.balances f (s.balances f - v)) t
          (Function.update s.balances f (s.balances f - v) t + v) a
        = (Function.update s.balances f (s.balances f - v) t + v) +
          ∑ a ∈ S \ {t}, Function.update s.balances f (s.balances f - v) a :=
      Finset.sum_update_of_mem ht _ _
    have e2 : ∑ a ∈ S, Function.update s.balances f (s.balances f - v) a =
        (∑ a ∈ S \ {t}, Function.update s.balances f (s.balances f - v) a) +
          Function.update s.balances f (s.balances f - v) t :=
      Finset.sum_eq_sum_diff_singleton_add ht _
    have e3 : ∑ a ∈ S, Function.update s.balances f (s.balances f - v) a =
        (s.balances f - v) + ∑ a ∈ S \ {f}, s.balances a :=
      Finset.sum_update_of_mem hf _ _
    have e4 : ∑ a ∈ S, s.balances a =
        (∑ a ∈ S \ {f}, s.balances a) + s.balances f :=
      Finset.sum_eq_sum_diff_singleton_add hf _
    simp only [Erc20State.balances] at *
    omega

/-- One ledger call (with failure leaving the state unchanged) preserves
the sum of balances over any finite account set containing the call's
payer and payee. -/
theorem applyLedgerOp_sum (s : Erc20State) (op : LedgerOp) (S : Finset Nat)
    (hf : op.src ∈ S) (ht : op.dst ∈ S) :
    ∑ a ∈ S, (applyLedgerOp s op).balances a = ∑ a ∈ S, s.balances a := by
  cases op with
  | transferOp f t v =>
    simp only [applyLedgerOp, transferRun, transfer]
    cases h : transfer_help s f t v with
    | ok s1 =>
      simpa using transfer_help_sum s s1 f t v S hf ht h
    | error e => simp
  | transferFromOp f t v =>
    simp only [applyLedgerOp, transferFromRun, transfer_from]
    by_cases hb : s.balances f < v
    · simp [hb]
    · simp only [hb, if_false]
      cases h : transfer_help
          { s with allowance :=
              Function.update s.allowance (f, t) (some (s.balances f - v)) } f t v with
      | ok s1 =>
        simpa using transfer_help_sum _ s1 f t v S hf ht h
      | error e => simp

/-- Claim C1: conservation — applying any sequence of `transfer` /
`transfer_from` calls never changes the sum of free balances over a finite
account set containing every payer and payee of the sequence (failing
calls leave the state untouched; each successful call debits the payer by
exactly the amount it credits the payee). -/
theorem ledger_transfer_conservation (ops : List LedgerOp) (S : Finset Nat) (s : Erc20State)
    (h : ∀ op ∈ ops, op.src ∈ S ∧ op.dst ∈ S) :
    ∑ a ∈ S, (applyLedgerOps s ops).balances a = ∑ a ∈ S, s.balances a := by
  induction ops generalizing s with
  | nil => rfl
  | cons op ops ih =>
    have hop := h op (List.mem_cons_self op ops)
    have hrest : ∀ o ∈ ops, o.src ∈ S ∧ o.dst ∈ S :=
      fun o ho => h o (List.mem_cons_of_mem op ho)
    calc ∑ a ∈ S, (applyLedgerOps s (op :: ops)).balances a
        = ∑ a ∈ S, (applyLedgerOps (applyLedgerOp s op) ops).balances a := rfl
      _ = ∑ a ∈ S, (applyLedgerOp s op).balances a := ih (applyLedgerOp s op) hrest
      _ = ∑ a ∈ S, s.balances a := applyLedgerOp_sum s op S hop.1 hop.2

/-- Claim C1 witness: a transfer of 40 and a (failing) delegated transfer
of 200 leave the total over accounts `{0, 1}` at 100. -/
theorem ledger_transfer_conservation_witness :
    (∀ op ∈ [LedgerOp.transferOp 0 1 40, LedgerOp.transferFromOp 1 0 200],
      op.src ∈ ({0, 1} : Finset Nat) ∧ op.dst ∈ ({0, 1} : Finset Nat)) ∧
    ∑ a ∈ ({0, 1} : Finset Nat),
        (applyLedgerOps demoLedger
          [LedgerOp.transferOp 0 1 40, LedgerOp.transferFromOp 1 0 200]).balances a =
      ∑ a ∈ ({0, 1} : Finset Nat), demoLedger.balances a :=
  ⟨by decide,
    ledger_transfer_conservation
      [LedgerOp.transferOp 0 1 40, LedgerOp.transferFromOp 1 0 200]
      ({0, 1} : Finset Nat) demoLedger (by decide)⟩

/-! ### Order-book theorems -/

/-- Claim C5: when the order id counter holds its maximum representable
value, `submit_order` fails with `OrderIdOverflow` and the pre-call state
is kept whole: the counter is unchanged, nothing is reserved and no order
is stored (the overflow is detected before `reserve` is attempted, and
`try_mutate` discards the counter write on error). -/
theorem submit_order_overflow_no_effect (max : Nat) (s : ExchState)
    (who base_currency_id base_amount target_currency_id target_amount : Nat)
    (h : s.next_order_id = max) :
    submitOrderRun max s who base_currency_id base_amount target_currency_id target_amount =
      (s, some ExchError.OrderIdOverflow) := by
  have h1 : ¬ s.next_order_id + 1 ≤ max := by omega
  simp [submitOrderRun, submit_order, h1]

/-- Claim C5 witness: with the counter at 7 and bound 7, submitting fails
`OrderIdOverflow` and returns the pre-call state. -/
theorem submit_order_overflow_no_effect_witness :
    ({ demoBook with next_order_id := 7 } : ExchState).next_order_id = 7 ∧
    submitOrderRun 7 { demoBook with next_order_id := 7 } 7 0 3 1 4 =
      ({ demoBook with next_order_id := 7 }, some ExchError.OrderIdOverflow) :=
  ⟨rfl, submit_order_overflow_no_effect 7 _ 7 0 3 1 4 rfl⟩

/-- Claim C2: when `take_order`'s first leg (paying `target_amount` to the
owner) would succeed but the owner's reserved base balance cannot cover
`base_amount`, the repatriation shortfall is non-zero, the whole call fails
with `InsufficientBalance`, and the pre-call state is kept: the first leg
is not observable, the order remains stored and every balance equals its
pre-call value (`with_transaction_result` discards both legs and
`try_mutate_exists` discards the entry removal). -/
theorem take_order_shortfall_rolls_back (s : ExchState) (who order_id : Nat) (order : Order)
    (horder : s.orders order_id = some (some order))
    (hleg1 : order.target_amount ≤ s.free (order.target_currency_id, who))
    (hshort : s.reserved (order.base_currency_id, order.owner) < order.base_amount) :
    takeOrderRun s who order_id = (s, some ExchError.InsufficientBalance) := by
  have h1 : ¬ s.free (order.target_currency_id, who) < order.target_amount :=
    not_lt.mpr hleg1
  have h2 : ¬ (order.base_amount -
      min order.base_amount (s.reserved (order.base_currency_id, order.owner)) = 0) := by
    omega
  simp [takeOrderRun, take_order, horder, mc_transfer, h1, repatriate_reserved, h2]

/-- Claim C2 witness: taker 2 holds the full 10 target units, but the
owner's reserved base balance is 20 < 30; the call fails
`InsufficientBalance` and returns the pre-call state. -/
theorem take_order_shortfall_rolls_back_witness :
    demoBookShort.orders 0 = some (some demoOrder) ∧
    demoOrder.target_amount ≤ demoBookShort.free (demoOrder.target_currency_id, 2) ∧
    demoBookShort.reserved (demoOrder.base_currency_id, demoOrder.owner) <
      demoOrder.base_amount ∧
    takeOrderRun demoBookShort 2 0 = (demoBookShort, some ExchError.InsufficientBalance) :=
  ⟨by decide, by decide, by decide,
    take_order_shortfall_rolls_back demoBookShort 2 0 demoOrder
      (by decide) (by decide) (by decide)⟩

/-- Claim C9: on a live order, `cancel_order` by a non-owner fails
`NotOwner` and keeps the pre-call state (the order stays stored); by the
owner it removes the order and deposits `OrderCancelled(order_id)`; in
both cases the reserved (and free) balances are untouched — the owner's
reservation is not released back to free balance. -/
theorem cancel_order_owner_check (s : ExchState) (who order_id : Nat) (order : Order)
    (horder : s.orders order_id = some (some order)) :
    (order.owner ≠ who → cancelOrderRun s who order_id = (s, some ExchError.NotOwner)) ∧
    (order.owner = who →
      (cancelOrderRun s who order_id).2 = none ∧
      (cancelOrderRun s who order_id).1.orders order_id = none ∧
      (cancelOrderRun s who order_id).1.reserved = s.reserved ∧
      (cancelOrderRun s who order_id).1.free = s.free ∧
      (cancelOrderRun s who order_id).1.events =
        s.events ++ [ExchEvent.OrderCancelled order_id]) := by
  constructor
  · intro h
    simp [cancelOrderRun, cancel_order, horder, h]
  · intro h
    simp [cancelOrderRun, cancel_order, horder, h]

/-- Claim C9 witness: caller 2 is not the owner of `demoOrder` and fails
`NotOwner` with the state kept; owner 7 cancels, the order is removed, the
event is deposited, and the reserved map still holds the 30 base units. -/
theorem cancel_order_owner_check_witness :
    demoBook.orders 0 = some (some demoOrder) ∧
    cancelOrderRun demoBook 2 0 = (demoBook, some ExchError.NotOwner) ∧
    ((cancelOrderRun demoBook 7 0).2 = none ∧
      (cancelOrderRun demoBook 7 0).1.orders 0 = none ∧
      (cancelOrderRun demoBook 7 0).1.reserved = demoBook.reserved ∧
      (cancelOrderRun demoBook 7 0).1.free = demoBook.free ∧
      (cancelOrderRun demoBook 7 0).1.events =
        demoBook.events ++ [ExchEvent.OrderCancelled 0]) :=
  ⟨by decide,
    (cancel_order_owner_check demoBook 2 0 demoOrder (by decide)).1 (by decide),
    (cancel_order_owner_check demoBook 7 0 demoOrder (by decide)).2 (by decide)⟩

/-- Claim C4 counterexample: on `demoBook` the owner's first
`cancel_order` succeeds, but the second call on the same id fails with
`InvalidOrderId`, not `OrderIsNone` — `try_mutate_exists` removed the
whole entry, so the claim "the second call fails with error OrderIsNone"
is false here (the same happens after a successful `take_order`). -/
theorem second_call_error_counterexample :
    (cancelOrderRun demoBook 7 0).2 = none ∧
    (cancelOrderRun (cancelOrderRun demoBook 7 0).1 7 0).2 = some ExchError.InvalidOrderId ∧
    (takeOrderRun (cancelOrderRun demoBook 7 0).1 2 0).2 = some ExchError.InvalidOrderId ∧
    ¬ (cancelOrderRun (cancelOrderRun demoBook 7 0).1 7 0).2 = some ExchError.OrderIsNone ∧
    ¬ (takeOrderRun (cancelOrderRun demoBook 7 0).1 2 0).2 = some ExchError.OrderIsNone := by
  refine ⟨?_, ?_, ?_, ?_, ?_⟩ <;> decide

/-- Claim C4 (amended): once `take_order` or `cancel_order` has succeeded
on an order id, a second `take_order` or `cancel_order` with that id fails
— but with `InvalidOrderId` rather than `OrderIsNone`, because the
successful call removes the whole storage entry. -/
theorem second_call_invalid_order_id (s s1 : ExchState) (who who2 order_id : Nat)
    (h : take_order s who order_id = .ok s1 ∨ cancel_order s who order_id = .ok s1) :
    take_order s1 who2 order_id = .error ExchError.InvalidOrderId ∧
    cancel_order s1 who2 order_id = .error ExchError.InvalidOrderId := by
  have horders : s1.orders order_id = none := by
    rcases h with h | h
    · unfold take_order at h
      cases ho : s.orders order_id with
      | none => rw [ho] at h; simp at h
      | some inner =>
        cases inner with
        | none => rw [ho] at h; simp at h
        | some order =>
          rw [ho] at h
          simp only at h
          cases hmc : mc_transfer s order.target_currency_id who
              order.owner order.target_amount with
          | error e => rw [hmc] at h; simp at h
          | ok s2 =>
            rw [hmc] at h
            simp only at h
            by_cases hz : (repatriate_reserved s2 order.base_currency_id
                order.owner who order.base_amount).2 = 0
            · rw [if_pos hz] at h
              cases h
              simp
            · rw [if_neg hz] at h
              simp at h
    · unfold cancel_order at h
      cases ho : s.orders order_id with
      | none => rw [ho] at h; simp at h
      | some inner =>
        cases inner with
        | none => rw [ho] at h; simp at h
        | some order =>
          rw [ho] at h
          simp only at h
          by_cases hw : order.owner = who
          · rw [if_pos hw] at h
            cases h
            simp
          · rw [if_neg hw] at h
            simp at h
  constructor
  · unfold take_order
    rw [horders]
  · unfold cancel_order
    rw [horders]

/-- Claim C4 (amended) witness: after the owner's successful cancel on
`demoBook`, both a take and a cancel on id 0 fail `InvalidOrderId`. -/
theorem second_call_invalid_order_id_witness :
    cancel_order demoBook 7 0 = .ok (cancelOrderRun demoBook 7 0).1 ∧
    take_order (cancelOrderRun demoBook 7 0).1 2 0 = .error ExchError.InvalidOrderId ∧
    cancel_order (cancelOrderRun demoBook 7 0).1 2 0 = .error ExchError.InvalidOrderId :=
  ⟨rfl,
    (second_call_invalid_order_id demoBook (cancelOrderRun demoBook 7 0).1 7 2 0
      (Or.inr rfl)).1,
    (second_call_invalid_order_id demoBook (cancelOrderRun demoBook 7 0).1 7 2 0
      (Or.inr rfl)).2⟩

/-- The function `createdIds` distributes over event-log concatenation. -/
theorem createdIds_append (l l2 : List ExchEvent) :
    createdIds (l ++ l2) = createdIds l ++ createdIds l2 := by
  induction l with
  | nil => rfl
  | cons e rest ih => cases e <;> simp [createdIds, ih]

/-- Shape of a successful `reserve`: only the free and reserved balances
of `(currency, who)` move, and `amount` goes from free to reserved. -/
theorem reserve_ok_shape (s : ExchState) (currency who amount : Nat) (s1 : ExchState)
    (h : reserve s currency who amount = .ok s1) :
    s1.orders = s.orders ∧ s1.next_order_id = s.next_order_id ∧ s1.events = s.events := by
  unfold reserve at h
  by_cases hb : s.free (currency, who) < amount
  · rw [if_pos hb] at h
    simp at h
  · rw [if_neg hb] at h
    cases h
    exact ⟨rfl, rfl, rfl⟩

/-- Shape of a successful `mc_transfer`: only free balances move. -/
theorem mc_transfer_ok_shape (s : ExchState) (currency from_ to_ amount : Nat) (s1 : ExchState)
    (h : mc_transfer s currency from_ to_ amount = .ok s1) :
    s1.orders = s.orders ∧ s1.next_order_id = s.next_order_id ∧
    s1.reserved = s.reserved ∧ s1.events = s.events := by
  unfold mc_transfer at h
  by_cases hb : s.free (currency, from_) < amount
  · rw [if_pos hb] at h
    simp at h
  · rw [if_neg hb] at h
    cases h
    exact ⟨rfl, rfl, rfl, rfl⟩

/-- An `mc_transfer` error is always `InsufficientBalance`. -/
theorem mc_transfer_error_shape (s : ExchState) (currency from_ to_ amount : Nat) (e : ExchError)
    (h : mc_transfer s currency from_ to_ amount = .error e) :
    e = ExchError.InsufficientBalance := by
  unfold mc_transfer at h
  by_cases hb : s.free (currency, from_) < amount
  · rw [if_pos hb] at h
    cases h
    rfl
  · rw [if_neg hb] at h
    simp at h

/-- Shape of a successful `submit_order`: the order is stored as
`Some(order)` under the snapshotted id, the counter advances by one, and
`OrderCreated` is deposited. -/
theorem submit_order_ok_shape (max : Nat) (s : ExchState)
    (who bc ba tc ta : Nat) (s1 : ExchState)
    (h : submit_order max s who bc ba tc ta = .ok s1) :
    s1.orders = Function.update s.orders s.next_order_id
      (some (some { base_currency_id := bc, base_amount := ba, target_currency_id := tc,
                    target_amount := ta, owner := who })) ∧
    s1.next_order_id = s.next_order_id + 1 ∧
    s1.events = s.events ++ [ExchEvent.OrderCreated s.next_order_id
      { base_currency_id := bc, base_amount := ba, target_currency_id := tc,
        target_amount := ta, owner := who }] := by
  unfold submit_order at h
  by_cases hle : s.next_order_id + 1 ≤ max
  · rw [if_pos hle] at h
    cases hr : reserve s bc who ba with
    | error e =>
      rw [hr] at h
      simp at h
    | ok sr =>
      rw [hr] at h
      simp only at h
      obtain ⟨ho, -, hev⟩ := reserve_ok_shape s bc who ba sr hr
      cases h
      exact ⟨by rw [ho], rfl, by rw [hev]⟩
  · rw [if_neg hle] at h
    simp at h

/-- Shape of a successful `take_order`: the entry is removed, the counter
is untouched, and the only deposited event is an `OrderTaken` (so the
`OrderCreated` ids are unchanged). -/
theorem take_order_ok_shape (s : ExchState) (who order_id : Nat) (s1 : ExchState)
    (h : take_order s who order_id = .ok s1) :
    s1.orders = Function.update s.orders order_id none ∧
    s1.next_order_id = s.next_order_id ∧
    createdIds s1.events = createdIds s.events := by
  unfold take_order at h
  cases ho : s.orders order_id with
  | none =>
    rw [ho] at h
    simp at h
  | some inner =>
    cases inner with
    | none =>
      rw [ho] at h
      simp at h
    | some order =>
      rw [ho] at h
      simp only at h
      cases hmc : mc_transfer s order.target_currency_id who order.owner order.target_amount with
      | error e =>
        rw [hmc] at h
        simp at h
      | ok s2 =>
        rw [hmc] at h
        simp only at h
        obtain ⟨ho2, hn2, -, hev2⟩ :=
          mc_transfer_ok_shape s order.target_currency_id who order.owner order.target_amount s2 hmc
        by_cases hz : (repatriate_reserved s2 order.base_currency_id
            order.owner who order.base_amount).2 = 0
        · rw [if_pos hz] at h
          cases h
          have hro : (repatriate_reserved s2 order.base_currency_id
              order.owner who order.base_amount).1.orders = s2.orders := rfl
          have hrn : (repatriate_reserved s2 order.base_currency_id
              order.owner who order.base_amount).1.next_order_id = s2.next_order_id := rfl
          have hre : (repatriate_reserved s2 order.base_currency_id
              order.owner who order.base_amount).1.events = s2.events := rfl
          refine ⟨?_, ?_, ?_⟩
          · simp only [hro, ho2]
          · simp only [hrn, hn2]
          · simp only [hre, createdIds_append, hev2, createdIds, List.append_nil]
        · rw [if_neg hz] at h
          simp at h

/-- Shape of a successful `cancel_order`: the entry is removed, balances
and the counter are untouched, and the only deposited event is an
`OrderCancelled`. -/
theorem cancel_order_ok_shape (s : ExchState) (who order_id : Nat) (s1 : ExchState)
    (h : cancel_order s who order_id = .ok s1) :
    s1.orders = Function.update s.orders order_id none ∧
    s1.next_order_id = s.next_order_id ∧
    createdIds s1.events = createdIds s.events := by
  unfold cancel_order at h
  cases ho : s.orders order_id with
  | none =>
    rw [ho] at h
    simp at h
  | some inner =>
    cases inner with
    | none =>
      rw [ho] at h
      simp at h
    | some order =>
      rw [ho] at h
      simp only at h
      by_cases hw : order.owner = who
      · rw [if_pos hw] at h
        cases h
        refine ⟨rfl, rfl, ?_⟩
        simp only [createdIds_append, createdIds, List.append_nil]
      · rw [if_neg hw] at h
        simp at h

/-- One exchange call preserves "no stored entry holds `None`":
`submit_order` only ever inserts `Some(order)`, and `take_order` /
`cancel_order` remove the whole entry on success. -/
theorem applyExchOp_no_inner_none (max : Nat) (s : ExchState) (op : ExchOp)
    (h : ∀ oid, s.orders oid ≠ some none) :
    ∀ oid, (applyExchOp max s op).orders oid ≠ some none := by
  intro oid
  cases op with
  | submitOp who bc ba tc ta =>
    show (submitOrderRun max s who bc ba tc ta).1.orders oid ≠ some none
    unfold submitOrderRun
    cases hs : submit_order max s who bc ba tc ta with
    | error e => exact h oid
    | ok s1 =>
      show s1.orders oid ≠ some none
      rw [(submit_order_ok_shape max s who bc ba tc ta s1 hs).1]
      by_cases hoid : oid = s.next_order_id
      · subst hoid
        simp
      · rw [Function.update_noteq hoid]
        exact h oid
  | takeOp who oid2 =>
    show (takeOrderRun s who oid2).1.orders oid ≠ some none
    unfold takeOrderRun
    cases hs : take_order s who oid2 with
    | error e => exact h oid
    | ok s1 =>
      show s1.orders oid ≠ some none
      rw [(take_order_ok_shape s who oid2 s1 hs).1]
      by_cases hoid : oid = oid2
      · subst hoid
        simp
      · rw [Function.update_noteq hoid]
        exact h oid
  | cancelOp who oid2 =>
    show (cancelOrderRun s who oid2).1.orders oid ≠ some none
    unfold cancelOrderRun
    cases hs : cancel_order s who oid2 with
    | error e => exact h oid
    | ok s1 =>
      show s1.orders oid ≠ some none
      rw [(cancel_order_ok_shape s who oid2 s1 hs).1]
      by_cases hoid : oid = oid2
      · subst hoid
        simp
      · rw [Function.update_noteq hoid]
        exact h oid

/-- Any sequence of exchange calls preserves "no stored entry holds
`None`". -/
theorem applyExchOps_no_inner_none (max : Nat) (ops : List ExchOp) (s : ExchState)
    (h : ∀ oid, s.orders oid ≠ some none) :
    ∀ oid, (applyExchOps max ops s).orders oid ≠ some none := by
  induction ops generalizing s with
  | nil => exact h
  | cons op ops ih => exact ih _ (applyExchOp_no_inner_none max s op h)

/-- If the entry under `order_id` does not hold `None`, `take_order`
cannot fail with `OrderIsNone` (its other error exits are `InvalidOrderId`
and `InsufficientBalance`). -/
theorem take_order_no_orderIsNone (s : ExchState) (who order_id : Nat)
    (h : s.orders order_id ≠ some none) :
    take_order s who order_id ≠ .error ExchError.OrderIsNone := by
  unfold take_order
  cases ho : s.orders order_id with
  | none => simp
  | some inner =>
    cases inner with
    | none => exact absurd ho h
    | some order =>
      simp only
      cases hmc : mc_transfer s order.target_currency_id who order.owner order.target_amount with
      | error e =>
        rw [mc_transfer_error_shape s order.target_currency_id who
          order.owner order.target_amount e hmc]
        simp
      | ok s2 =>
        by_cases hz : (repatriate_reserved s2 order.base_currency_id
            order.owner who order.base_amount).2 = 0
        · simp [hz]
        · simp [hz]

/-- If the entry under `order_id` does not hold `None`, `cancel_order`
cannot fail with `OrderIsNone`. -/
theorem cancel_order_no_orderIsNone (s : ExchState) (who order_id : Nat)
    (h : s.orders order_id ≠ some none) :
    cancel_order s who order_id ≠ .error ExchError.OrderIsNone := by
  unfold cancel_order
  cases ho : s.orders order_id with
  | none => simp
  | some inner =>
    cases inner with
    | none => exact absurd ho h
    | some order =>
      simp only
      by_cases hw : order.owner = who
      · rw [if_pos hw]
        simp
      · rw [if_neg hw]
        simp

/-- Claim C10: in every state reachable from genesis by exchange calls,
no stored `Orders` entry holds `None` (`submit_order` only inserts
`Some(order)`; successful `take_order` / `cancel_order` remove the whole
entry), so the `OrderIsNone` error branch of `take_order` and
`cancel_order` is unreachable. -/
theorem orders_always_some (max : Nat) (free0 : Nat × Nat → Nat) (ops : List ExchOp) :
    (∀ order_id, (applyExchOps max ops (exchInit free0)).orders order_id ≠ some none) ∧
    (∀ who order_id,
      take_order (applyExchOps max ops (exchInit free0)) who order_id ≠
        .error ExchError.OrderIsNone ∧
      cancel_order (applyExchOps max ops (exchInit free0)) who order_id ≠
        .error ExchError.OrderIsNone) := by
  have h0 : ∀ oid, (exchInit free0).orders oid ≠ some none := by
    intro oid
    simp [exchInit]
  have hinv := applyExchOps_no_inner_none max ops (exchInit free0) h0
  exact ⟨hinv, fun who oid =>
    ⟨take_order_no_orderIsNone _ who oid (hinv oid),
      cancel_order_no_orderIsNone _ who oid (hinv oid)⟩⟩

/-- Claim C10 witness: the invariant instantiated on a concrete run that
submits one order and takes it. -/
theorem orders_always_some_witness :
    (∀ order_id, (applyExchOps 16 [ExchOp.submitOp 7 0 0 1 5]
        (exchInit fun _ => 0)).orders order_id ≠ some none) ∧
    (∀ who order_id,
      take_order (applyExchOps 16 [ExchOp.submitOp 7 0 0 1 5]
          (exchInit fun _ => 0)) who order_id ≠
        .error ExchError.OrderIsNone ∧
      cancel_order (applyExchOps 16 [ExchOp.submitOp 7 0 0 1 5]
          (exchInit fun _ => 0)) who order_id ≠
        .error ExchError.OrderIsNone) :=
  orders_always_some 16 (fun _ => 0) [ExchOp.submitOp 7 0 0 1 5]

/-- One exchange call preserves the order-id bookkeeping invariant
`IdsOk`: a successful `submit_order` appends the pre-call counter value
(above every previously issued id) and bumps the counter; `take_order` and
`cancel_order` issue no id and keep the counter. -/
theorem applyExchOp_idsOk (max : Nat) (s : ExchState) (op : ExchOp) (h : IdsOk s) :
    IdsOk (applyExchOp max s op) := by
  obtain ⟨hsort, hlt⟩ := h
  cases op with
  | submitOp who bc ba tc ta =>
    show IdsOk (submitOrderRun max s who bc ba tc ta).1
    unfold submitOrderRun
    cases hs : submit_order max s who bc ba tc ta with
    | error e => exact ⟨hsort, hlt⟩
    | ok s1 =>
      obtain ⟨-, hnext, hev⟩ := submit_order_ok_shape max s who bc ba tc ta s1 hs
      constructor
      · show List.Sorted _ (createdIds s1.events)
        rw [hev, createdIds_append]
        show List.Pairwise _ _
        apply List.pairwise_append.mpr
        refine ⟨hsort, ?_, ?_⟩
        · simp [createdIds]
        · intro a ha b hb
          simp only [createdIds] at hb
          rw [List.mem_singleton] at hb
          subst hb
          exact hlt a ha
      · intro i hi
        show i < s1.next_order_id
        rw [hev, createdIds_append] at hi
        rw [hnext]
        rcases List.mem_append.mp hi with hi | hi
        · exact Nat.lt_trans (hlt i hi) (Nat.lt_succ_self _)
        · simp only [createdIds] at hi
          rw [List.mem_singleton] at hi
          subst hi
          exact Nat.lt_succ_self _
  | takeOp who oid =>
    show IdsOk (takeOrderRun s who oid).1
    unfold takeOrderRun
    cases hs : take_order s who oid with
    | error e => exact ⟨hsort, hlt⟩
    | ok s1 =>
      obtain ⟨-, hnext, hev⟩ := take_order_ok_shape s who oid s1 hs
      refine ⟨?_, ?_⟩
      · show List.Sorted _ (createdIds s1.events)
        rw [hev]
        exact hsort
      · intro i hi
        show i < s1.next_order_id
        rw [hev] at hi
        rw [hnext]
        exact hlt i hi
  | cancelOp who oid =>
    show IdsOk (cancelOrderRun s who oid).1
    unfold cancelOrderRun
    cases hs : cancel_order s who oid with
    | error e => exact ⟨hsort, hlt⟩
    | ok s1 =>
      obtain ⟨-, hnext, hev⟩ := cancel_order_ok_shape s who oid s1 hs
      refine ⟨?_, ?_⟩
      · show List.Sorted _ (createdIds s1.events)
        rw [hev]
        exact hsort
      · intro i hi
        show i < s1.next_order_id
        rw [hev] at hi
        rw [hnext]
        exact hlt i hi

/-- Any sequence of exchange calls preserves `IdsOk`. -/
theorem applyExchOps_idsOk (max : Nat) (ops : List ExchOp) (s : ExchState) (h : IdsOk s) :
    IdsOk (applyExchOps max ops s) := by
  induction ops generalizing s with
  | nil => exact h
  | cons op ops ih => exact ih _ (applyExchOp_idsOk max s op h)

/-- Claim C8: the order id counter starts at zero at genesis, each
successful `submit_order` bumps it by exactly one, no call ever decreases
it, and along every run from genesis the issued order ids (the
`OrderCreated` events) are strictly increasing — in particular no id is
ever issued twice. -/
theorem order_id_counter_props :
    (∀ free0 : Nat × Nat → Nat, (exchInit free0).next_order_id = 0) ∧
    (∀ max : Nat, ∀ s : ExchState, ∀ who bc ba tc ta : Nat, ∀ s1 : ExchState,
      submit_order max s who bc ba tc ta = .ok s1 →
      s1.next_order_id = s.next_order_id + 1) ∧
    (∀ max : Nat, ∀ s : ExchState, ∀ op : ExchOp,
      s.next_order_id ≤ (applyExchOp max s op).next_order_id) ∧
    (∀ max : Nat, ∀ free0 : Nat × Nat → Nat, ∀ ops : List ExchOp,
      List.Sorted (· < ·) (createdIds (applyExchOps max ops (exchInit free0)).events)) ∧
    (∀ max : Nat, ∀ free0 : Nat × Nat → Nat, ∀ ops : List ExchOp,
      (createdIds (applyExchOps max ops (exchInit free0)).events).Nodup) := by
  have hinit : ∀ free0 : Nat × Nat → Nat, IdsOk (exchInit free0) := by
    intro free0
    exact ⟨List.sorted_nil, by intro i hi; simp [exchInit, createdIds] at hi⟩
  have hsorted : ∀ max : Nat, ∀ free0 : Nat × Nat → Nat, ∀ ops : List ExchOp,
      List.Sorted (· < ·) (createdIds (applyExchOps max ops (exchInit free0)).events) :=
    fun max free0 ops => (applyExchOps_idsOk max ops (exchInit free0) (hinit free0)).1
  refine ⟨fun _ => rfl, ?_, ?_, hsorted, fun max free0 ops => (hsorted max free0 ops).nodup⟩
  · intro max s who bc ba tc ta s1 hs
    exact (submit_order_ok_shape max s who bc ba tc ta s1 hs).2.1
  · intro max s op
    cases op with
    | submitOp who bc ba tc ta =>
      show s.next_order_id ≤ (submitOrderRun max s who bc ba tc ta).1.next_order_id
      unfold submitOrderRun
      cases hs : submit_order max s who bc ba tc ta with
      | error e => exact Nat.le_refl _
      | ok s1 =>
        show s.next_order_id ≤ s1.next_order_id
        rw [(submit_order_ok_shape max s who bc ba tc ta s1 hs).2.1]
        exact Nat.le_succ _
    | takeOp who oid =>
      show s.next_order_id ≤ (takeOrderRun s who oid).1.next_order_id
      unfold takeOrderRun
      cases hs : take_order s who oid with
      | error e => exact Nat.le_refl _
      | ok s1 =>
        show s.next_order_id ≤ s1.next_order_id
        rw [(take_order_ok_shape s who oid s1 hs).2.1]
    | cancelOp who oid =>
      show s.next_order_id ≤ (cancelOrderRun s who oid).1.next_order_id
      unfold cancelOrderRun
      cases hs : cancel_order s who oid with
      | error e => exact Nat.le_refl _
      | ok s1 =>
        show s.next_order_id ≤ s1.next_order_id
        rw [(cancel_order_ok_shape s who oid s1 hs).2.1]

/-- Claim C8 witness: a concrete successful `submit_order` (taker 2
reserving its 10 target units as base of a new order) bumps the counter of
`demoBook` from 1 to 2. -/
theorem order_id_counter_props_witness :
    (submitOrderRun 16 demoBook 2 1 10 0 20).1.next_order_id = demoBook.next_order_id + 1 :=
  order_id_counter_props.2.1 16 demoBook 2 1 10 0 20
    (submitOrderRun 16 demoBook 2 1 10 0 20).1 rfl
